import Mathlib

set_option maxRecDepth 100000

/-!
# Verified model of the contract-analysis extraction pipeline

This file gives a shallow embedding, in Lean 4, of the structured-content
extraction code of the Contract-Analysis-App repository (`src/server.js`,
helper `flattenPolygon`, the line-polygon map built in
`extractStructuredContent`, the inner `findLinePolygon` resolver, and the
paragraph / line assembly paths), together with theorems settling the
specification claims about that code.

Modelling conventions:
* JavaScript numbers that appear as polygon coordinates are modelled as `Int`
  (the claims only inspect their count, equality and presence, never their
  arithmetic); page numbers and indices are `Nat`.
* Absent (`undefined`/`null`) optional fields are modelled with `Option`.
* A JS string is modelled by a Lean `String`; the JS primitives used by the
  source (`trim`, `split('\n')[0]`, `split(':')[1]`, `startsWith`, decimal
  rendering of numbers inside template literals) are modelled by structural
  Lean functions below so that every definition evaluates by kernel
  reduction.  `String.length` in JS counts UTF-16 code units; it is modelled
  by the code-point count, which agrees on all strings considered here.
* `forEach`-with-`push` loops become `List.enum.map`/`List.foldl`; `+=`
  string accumulation becomes concatenation of a mapped list.
-/

/-- Whitespace characters recognised by the JS regex class `\s` and by
`String.prototype.trim` (the ASCII white-space characters plus NBSP). -/
def jsSpace (c : Char) : Bool :=
  c = ' ' || c = '\t' || c = '\n' || c = '\x0b' || c = '\x0c' || c = '\r' || c = ' '

/-- JS `String.prototype.trim`: drop leading and trailing whitespace. -/
def jsTrimList (s : List Char) : List Char :=
  ((s.dropWhile jsSpace).reverse.dropWhile jsSpace).reverse

/-- JS `content.trim()` on a string value. -/
def jsTrim (s : String) : String :=
  ⟨jsTrimList s.data⟩

/-- JS `content.split('\n')[0]`: the characters before the first newline
(or the whole string when it holds no newline). -/
def firstLineOf (s : String) : String :=
  ⟨s.data.takeWhile (fun c => c ≠ '\n')⟩

/-- JS `startsWith`: `pre` is a prefix of `s`. -/
def jsStartsWith (s pre : String) : Bool :=
  pre.data.isPrefixOf s.data

/-- Little-endian decimal digits (fuel-indexed so the recursion is
structural; `decRevAux f n` is correct whenever `n ≤ f`). -/
def decRevAux : Nat → Nat → List Nat
  | _, 0 => []
  | 0, _ + 1 => []
  | f + 1, n + 1 => (n + 1) % 10 :: decRevAux f ((n + 1) / 10)

/-- Little-endian decimal digits of `n` (empty for `0`). -/
def decDigits (n : Nat) : List Nat :=
  decRevAux n n

/-- Decimal rendering of a natural number, as a JS template literal renders
a non-negative integer. -/
def jsNatStr (n : Nat) : String :=
  if n = 0 then "0" else ⟨(decDigits n).reverse.map Nat.digitChar⟩

/-- Decimal rendering of an integer, as a JS template literal renders an
integral number. -/
def jsIntStr (i : Int) : String :=
  if i < 0 then "-" ++ jsNatStr i.natAbs else jsNatStr i.natAbs

/-- JS `Array.prototype.join(sep)`. -/
def jsJoin (sep : String) : List String → String
  | [] => ""
  | [s] => s
  | s :: t :: rest => s ++ sep ++ jsJoin sep (t :: rest)

/-- Concatenation of a list of strings, modelling `+=` accumulation. -/
def strConcat : List String → String
  | [] => ""
  | s :: rest => s ++ strConcat rest

/-! ## The polygon value space and `flattenPolygon` (server.js lines 152-161)

A polygon field can be absent, a flat array of numbers, an array of
`{x, y}` point objects, or an array of any other shape (which the helper
treats as no geometry).  An empty array falls into the last bucket in the
source because `polygon[0]` is `undefined` there. -/

inductive JPoly where
  | absent : JPoly
  | flat : List Int → JPoly
  | pts : List (Int × Int) → JPoly
  | other : JPoly
deriving DecidableEq

/-- `flattenPolygon` (server.js lines 152-161): `null`/non-array gives
`null`; a flat numeric array is returned as-is; an array of point objects is
flattened to `x, y` pairs in order; anything else (including the empty
array, whose first element is `undefined`) gives `null`. -/
def flattenPolygon : JPoly → Option (List Int)
  | JPoly.absent => none
  | JPoly.flat [] => none
  | JPoly.flat (c :: cs) => some (c :: cs)
  | JPoly.pts [] => none
  | JPoly.pts (p :: ps) => some ((p :: ps).flatMap (fun q => [q.1, q.2]))
  | JPoly.other => none

/-! ## The raw analysis result (input data model) -/

structure Line where
  content : String
  polygon : JPoly
deriving DecidableEq

structure Page where
  pageNumber : Nat
  lines : Option (List Line)
deriving DecidableEq

structure BoundingRegion where
  pageNumber : Nat
  polygon : JPoly
deriving DecidableEq

structure Paragraph where
  content : String
  role : Option String
  boundingRegions : Option (List BoundingRegion)
deriving DecidableEq

structure RawAnalysisResult where
  pages : Option (List Page)
  paragraphs : Option (List Paragraph)
deriving DecidableEq

/-! ## Output data model -/

structure ContentItem where
  id : String
  type : String
  content : String
  page : Nat
  boundingBox : List Int
  source : Option String
deriving DecidableEq

structure StructuredContent where
  items : List ContentItem
  fullText : String
  pageCount : Nat
deriving DecidableEq

/-! ## Heading-shape classification (server.js lines 220-232 and 273-281)

Each JS regex in the source is modelled by a structural predicate on the
character list; each predicate is anchored exactly as the regex is. -/

/-- An ASCII capital letter, the regex class `[A-Z]`. -/
def isUpperAZ (c : Char) : Bool :=
  'A' ≤ c && c ≤ 'Z'

/-- JS regex `/^[A-Z][A-Z\s]+$/`: a capital, then one or more characters
that are capitals or whitespace, and nothing else. -/
def reAllCaps (s : List Char) : Bool :=
  match s with
  | [] => false
  | c :: rest => isUpperAZ c && !rest.isEmpty && rest.all (fun d => isUpperAZ d || jsSpace d)

/-- After the first digit of `/^\d+\./`: the remaining digits, then a
literal dot (a match exists iff every character before the first non-digit
is a digit and that non-digit is `.`). -/
def digitsThenDot : List Char → Bool
  | [] => false
  | c :: rest => c = '.' || (c.isDigit && digitsThenDot rest)

/-- JS regex `/^\d+\./`: one or more digits followed by a dot. -/
def reNumDot (s : List Char) : Bool :=
  match s with
  | [] => false
  | c :: rest => c.isDigit && digitsThenDot rest

/-- Case-insensitive literal match (pattern given in lower case); returns
the remaining characters on success. -/
def stripCI : List Char → List Char → Option (List Char)
  | [], s => some s
  | _ :: _, [] => none
  | p :: ps, c :: cs => if c.toLower = p then stripCI ps cs else none

/-- The rest of `\s+C+`: skip further whitespace, then require one
character of the class `cls` (the classes used never contain whitespace,
so greedy matching with backtracking reduces to this test). -/
def afterSpaces (cls : Char → Bool) : List Char → Bool
  | [] => false
  | c :: rest => if jsSpace c then afterSpaces cls rest else cls c

/-- `\s+` then at least one character of class `cls`. -/
def spacesThenClass (cls : Char → Bool) : List Char → Bool
  | [] => false
  | c :: rest => jsSpace c && afterSpaces cls rest

/-- The regex class `[IVX\d]` under the `/i` flag. -/
def romanOrDigit (c : Char) : Bool :=
  c.isDigit || c.toLower = 'i' || c.toLower = 'v' || c.toLower = 'x'

/-- The regex class `[\d\.]`. -/
def digitOrDot (c : Char) : Bool :=
  c.isDigit || c = '.'

/-- JS regex `/^Article\s+[IVX\d]+/i`; because of the `/i` flag this is
also the exact semantics of the source's redundant `/^ARTICLE\s+[IVX\d]+/i`. -/
def reArticle (s : List Char) : Bool :=
  match stripCI ['a', 'r', 't', 'i', 'c', 'l', 'e'] s with
  | some rest => spacesThenClass romanOrDigit rest
  | none => false

/-- JS regex `/^Section\s+[\d\.]+/i`; also the semantics of the redundant
`/^SECTION\s+[\d\.]+/i`. -/
def reSection (s : List Char) : Bool :=
  match stripCI ['s', 'e', 'c', 't', 'i', 'o', 'n'] s with
  | some rest => spacesThenClass digitOrDot rest
  | none => false

/-- JS regex `/^Clause\s+[\d\.]+/i`. -/
def reClause (s : List Char) : Bool :=
  match stripCI ['c', 'l', 'a', 'u', 's', 'e'] s with
  | some rest => spacesThenClass digitOrDot rest
  | none => false

/-- The tail of `/^[A-Z][^.!?]*:$/` after its first character: the final
character is a colon and no `.`, `!` or `?` occurs before it (a colon may:
`[^.!?]` admits it, and without the `/m` flag `$` is the very end). -/
def colonTail : List Char → Bool
  | [] => false
  | [c] => c = ':'
  | c :: c2 :: rest => !(c = '.' || c = '!' || c = '?') && colonTail (c2 :: rest)

/-- JS regex `/^[A-Z][^.!?]*:$/`. -/
def reColonTitle (s : List Char) : Bool :=
  match s with
  | [] => false
  | c :: rest => isUpperAZ c && colonTail rest

/-- The disjunction of the shape regexes exactly as listed in the source
(lines 225-232 and 274-281); the ARTICLE/SECTION all-caps variants carry
the `/i` flag and therefore repeat the Article/Section predicates. -/
def shapeHeading (content : String) : Bool :=
  reAllCaps content.data || reNumDot content.data ||
  reArticle content.data || reSection content.data ||
  reArticle content.data || reSection content.data ||
  reColonTitle content.data || reClause content.data

/-- The length-gated shape test `content.length < 150 && (...)` shared by
the paragraph path (lines 224-232) and the line fallback path (lines
273-281). -/
def shapeGate (content : String) : Bool :=
  decide (content.length < 150) && shapeHeading content

/-- The full `isHeading` expression of the paragraph path (lines 221-232):
recognised roles first, then the length-gated shape test. -/
def paragraphIsHeading (role : String) (content : String) : Bool :=
  decide (role = "title") || decide (role = "sectionHeading") ||
  decide (role = "pageHeader") || shapeGate content

/-- `paragraph.role || 'paragraph'` (line 215): an absent role and the
empty string (both falsy in JS) default to `"paragraph"`. -/
def effectiveRole (role : Option String) : String :=
  match role with
  | some r => if r = "" then "paragraph" else r
  | none => "paragraph"

/-! ## The geometry index (server.js lines 168-185) and `findLinePolygon`
(lines 188-210)

The JS `Map` keyed by the string `` `${page.pageNumber}:${line.content.trim()}` ``
is modelled as an insertion-ordered association list keyed by the pair
(page number, trimmed text).  The translation of the string key to the
pair is faithful: the page number's decimal digits contain no colon, so
`` `${q}:${t}` `` starts with `` `${p}:` `` iff `p = q`, distinct pairs give
distinct key strings, and `key.split(':')[1]` is the stored text truncated
at its first colon. -/

structure LineGeom where
  page : Nat
  polygon : List Int
deriving DecidableEq

structure MapEntry where
  keyPage : Nat
  keyText : String
  geom : LineGeom
deriving DecidableEq

/-- JS `Map.prototype.get`/`has` on the modelled key (keys in the list are
pairwise distinct because insertion is guarded by `has`). -/
def lookupMap (m : List MapEntry) (p : Nat) (t : String) : Option LineGeom :=
  (m.find? (fun e => decide (e.keyPage = p) && decide (e.keyText = t))).map MapEntry.geom

/-- One iteration of the index-building loop (lines 173-182): flatten the
line's polygon; insert `{page, polygon}` only when the key is not already
present and the flat polygon has at least 8 numbers.  A JS `Map` appends a
new key at the end of its iteration order. -/
def insertLine (pn : Nat) (m : List MapEntry) (line : Line) : List MapEntry :=
  match flattenPolygon line.polygon with
  | some fp =>
    if (lookupMap m pn (jsTrim line.content)).isNone && decide (8 ≤ fp.length) then
      m ++ [⟨pn, jsTrim line.content, ⟨pn, fp⟩⟩]
    else m
  | none => m

/-- The index build over `result.pages` (lines 168-185); an absent `pages`
or an absent `lines` array contributes nothing. -/
def buildLineMap (pages : Option (List Page)) : List MapEntry :=
  match pages with
  | some pgs =>
    pgs.foldl
      (fun m page =>
        match page.lines with
        | some ls => ls.foldl (fun m line => insertLine page.pageNumber m line) m
        | none => m)
      []
  | none => []

/-- `key.split(':')[1]` of a stored key (line 204): the stored trimmed text
truncated at its first colon (the whole text when it holds none). -/
def keyFirstSeg (t : String) : String :=
  ⟨t.data.takeWhile (fun c => c ≠ ':')⟩

/-- `findLinePolygon` (lines 188-210): exact key match on the trimmed
content, then on the trimmed first line, then a scan for the first entry of
the page whose `key.split(':')[1]` segment is a prefix of the trimmed
content; `null` when all three fail.  Defined in the source but never
invoked. -/
def findLinePolygon (m : List MapEntry) (content : String) (pageNumber : Nat) : Option LineGeom :=
  match lookupMap m pageNumber (jsTrim content) with
  | some v => some v
  | none =>
    match lookupMap m pageNumber (jsTrim (firstLineOf content)) with
    | some v => some v
    | none =>
      (m.find? (fun e =>
        decide (e.keyPage = pageNumber) &&
        jsStartsWith (jsTrim content) (keyFirstSeg e.keyText))).map MapEntry.geom

/-! ## Item assembly (server.js lines 212-302) -/

/-- `paragraph.boundingRegions?.[0]?.polygon`; an absent or empty region
list yields `undefined`, modelled by the absent polygon. -/
def firstRegionPolygon (para : Paragraph) : JPoly :=
  match para.boundingRegions with
  | some (reg :: _) => reg.polygon
  | _ => JPoly.absent

/-- The wire format `D(page,x1,y1,x2,y2,x3,y3,x4,y4)` (lines 247 and 288),
built from the first 8 coordinates of a flat polygon (only applied under
the guard `8 ≤ p.length`, so the `getD` defaults are never used). -/
def fmtD (pn : Nat) (p : List Int) : String :=
  "D(" ++ jsNatStr pn ++ "," ++ jsIntStr (p.getD 0 0) ++ "," ++ jsIntStr (p.getD 1 0) ++ "," ++
  jsIntStr (p.getD 2 0) ++ "," ++ jsIntStr (p.getD 3 0) ++ "," ++ jsIntStr (p.getD 4 0) ++ "," ++
  jsIntStr (p.getD 5 0) ++ "," ++ jsIntStr (p.getD 6 0) ++ "," ++ jsIntStr (p.getD 7 0) ++ ")"

/-- One step of `paragraph.boundingRegions.map(...)` composed with
`.filter(s => s)` (lines 243-250): a formatted region string when the
region's flattened polygon has at least 8 numbers, otherwise dropped.  The
formatted strings are never empty, so JS truthiness filtering coincides
with dropping `null`. -/
def regionSourcePart (reg : BoundingRegion) : Option String :=
  match flattenPolygon reg.polygon with
  | some fp => if 8 ≤ fp.length then some (fmtD reg.pageNumber fp) else none
  | none => none

/-- Whether a region contributes to the `source` string. -/
def regionUsable (reg : BoundingRegion) : Bool :=
  match flattenPolygon reg.polygon with
  | some fp => decide (8 ≤ fp.length)
  | none => false

/-- The `ContentItem` pushed for the paragraph at position `index` of the
paragraph sequence (lines 213-261).  The page number defaults to 1 when the
first bounding region is absent (or carries the falsy page number 0); the
bounding box is the flattened first-region polygon or `[]`; `source` stays
`null` unless the region list is non-empty, in which case it is the
semicolon-join of the usable regions' formatted strings (possibly the empty
string). -/
def mkParagraphItem (index : Nat) (para : Paragraph) : ContentItem :=
  let content := para.content
  let role := effectiveRole para.role
  let isHeading := paragraphIsHeading role content
  let pageNumber : Nat :=
    match para.boundingRegions with
    | some (reg :: _) => if reg.pageNumber = 0 then 1 else reg.pageNumber
    | _ => 1
  let boundingPolygon : List Int := (flattenPolygon (firstRegionPolygon para)).getD []
  let source : Option String :=
    match para.boundingRegions with
    | some regions =>
      if 0 < regions.length then some (jsJoin ";" (regions.filterMap regionSourcePart))
      else none
    | none => none
  { id := "item-" ++ jsNatStr index
    type := if isHeading then "heading" else "paragraph"
    content := content
    page := pageNumber
    boundingBox := boundingPolygon
    source := source }

/-- The `ContentItem` pushed for a line in the fallback path (lines
266-301): classification is by content shape alone, the geometry comes from
the line's own polygon, and `source` is set only when that polygon
flattens to at least 8 numbers. -/
def mkLineItem (pageIndex : Nat) (pageNumber : Nat) (lineIndex : Nat) (line : Line) : ContentItem :=
  let content := line.content
  let isHeading := shapeGate content
  let flatPoly := flattenPolygon line.polygon
  let source : Option String :=
    match flatPoly with
    | some fp => if 8 ≤ fp.length then some (fmtD pageNumber fp) else none
    | none => none
  { id := "page-" ++ jsNatStr pageIndex ++ "-line-" ++ jsNatStr lineIndex
    type := if isHeading then "heading" else "paragraph"
    content := content
    page := pageNumber
    boundingBox := flatPoly.getD []
    source := source }

/-- The items pushed by the paragraph loop (lines 212-263), one per
paragraph in original order. -/
def paragraphItems (ps : List Paragraph) : List ContentItem :=
  ps.enum.map (fun x => mkParagraphItem x.1 x.2)

/-- The `fullText` accumulated by the paragraph loop (line 217): each
paragraph's content followed by a blank line. -/
def paragraphText (ps : List Paragraph) : String :=
  strConcat (ps.map (fun p => p.content ++ "\n\n"))

/-- The items pushed by the fallback loop (lines 266-302), one per line in
page-then-line order; a page with an absent `lines` array contributes
nothing. -/
def lineItems (pgs : List Page) : List ContentItem :=
  (pgs.enum.map
    (fun x => (x.2.lines.getD []).enum.map (fun y => mkLineItem x.1 x.2.pageNumber y.1 y.2))).flatten

/-- The `fullText` accumulated by the fallback loop (line 270): each line's
content followed by a single newline. -/
def linesText (pgs : List Page) : String :=
  strConcat (pgs.map (fun pg => strConcat ((pg.lines.getD []).map (fun l => l.content ++ "\n"))))

/-- `extractStructuredContent` (server.js lines 164-309).  The source also
builds the line-polygon map (modelled by `buildLineMap`) and defines the
closure `findLinePolygon` over it, but never applies that closure, so the
returned value does not depend on the index; the definitions above model
both faithfully and this function consults neither.  The fallback path runs
exactly when the paragraph loop pushed no items (`paragraphs` absent or the
empty array) and `pages` is present; `pageCount` is
`result.pages?.length || 0`. -/
def extractStructuredContent (result : RawAnalysisResult) : StructuredContent :=
  let paraItems : List ContentItem :=
    match result.paragraphs with
    | some ps => paragraphItems ps
    | none => []
  let paraText : String :=
    match result.paragraphs with
    | some ps => paragraphText ps
    | none => ""
  if paraItems.length = 0 then
    match result.pages with
    | some pgs => ⟨lineItems pgs, paraText ++ linesText pgs, pgs.length⟩
    | none => ⟨paraItems, paraText, 0⟩
  else
    ⟨paraItems, paraText, match result.pages with | some pgs => pgs.length | none => 0⟩

/-! ## Specification-side description functions

These definitions follow the words of spec claims (not the source); they
exist to be compared with the source-derived definitions above. -/

/-- The pages of a raw result flattened in page-then-line order, each line
tagged with its page number. -/
def allPageLines (pgs : List Page) : List (Nat × Line) :=
  (pgs.map (fun pg => (pg.lines.getD []).map (fun l => (pg.pageNumber, l)))).flatten

/-- Whether a line is stored by the index build: its polygon flattens to at
least 8 numbers. -/
def lineUsable (l : Line) : Bool :=
  match flattenPolygon l.polygon with
  | some fp => decide (8 ≤ fp.length)
  | none => false

/-- The number of lines over all pages. -/
def totalLineCount (pgs : List Page) : Nat :=
  (pgs.map (fun pg => (pg.lines.getD []).length)).sum

/-- The number of items the assembler emits: one per paragraph when the
paragraph loop pushed any, otherwise one per line of the pages (zero when
`pages` is absent). -/
def expectedItemCount (r : RawAnalysisResult) : Nat :=
  match r.paragraphs with
  | some ps =>
    if ps.length = 0 then
      match r.pages with
      | some pgs => totalLineCount pgs
      | none => 0
    else ps.length
  | none =>
    match r.pages with
    | some pgs => totalLineCount pgs
    | none => 0

/-- The prefix scan exactly as claim C6 words it: the first entry of the
page whose full stored line text is a prefix of the trimmed content. -/
def claimPrefixScan (m : List MapEntry) (content : String) (pageNumber : Nat) : Option LineGeom :=
  (m.find? (fun e =>
    decide (e.keyPage = pageNumber) &&
    jsStartsWith (jsTrim content) e.keyText)).map MapEntry.geom

/-- The lookup resolution exactly as claim C6 words it: exact match, then
(only for multi-line content) first-line match, then the full-text prefix
scan, and `none` when no rule matches. -/
def claimLookup (m : List MapEntry) (content : String) (pageNumber : Nat) : Option LineGeom :=
  match lookupMap m pageNumber (jsTrim content) with
  | some v => some v
  | none =>
    if content.data.contains '\n' then
      match lookupMap m pageNumber (jsTrim (firstLineOf content)) with
      | some v => some v
      | none => claimPrefixScan m content pageNumber
    else claimPrefixScan m content pageNumber

/-! ## Concrete inputs used by the claim scenarios -/

/-- The contract sentence of spec scenario 2 (claim C5). -/
def scenario2 : String :=
  "1.1 This Agreement shall commence on the Effective Date and continue for a period of five years unless earlier terminated as provided herein."

/-- The raw result of spec scenario 4 (claim C7): no `paragraphs` field,
one page with two lines. -/
def scenario4Input : RawAnalysisResult :=
  ⟨some [⟨1, some [⟨"SECTION 1", JPoly.absent⟩, ⟨"Text body here.", JPoly.absent⟩]⟩], none⟩

/-- Input for claim C1: the page carries a line `"Confidential"` with a
usable polygon (so the geometry index holds a matching entry), while the
paragraph with the same content has no bounding regions of its own. -/
def c1Input : RawAnalysisResult :=
  ⟨some [⟨1, some [⟨"Confidential", JPoly.flat [1, 2, 3, 4, 5, 6, 7, 8]⟩]⟩],
   some [⟨"Confidential", some "paragraph", none⟩]⟩

/-- Input for claim C3: a fallback-path raw result (no paragraphs, two
lines), whose `fullText` uses single newlines. -/
def c3Input : RawAnalysisResult :=
  ⟨some [⟨1, some [⟨"A", JPoly.absent⟩, ⟨"B", JPoly.absent⟩]⟩], none⟩

/-- Pages for claim C6: the stored line text `"Note: x"` contains a colon,
so `key.split(':')[1]` is `"Note"`, a proper prefix of contents the full
stored text does not prefix. -/
def c6Pages : Option (List Page) :=
  some [⟨1, some [⟨"Note: x", JPoly.flat [1, 2, 3, 4, 5, 6, 7, 8]⟩]⟩]

/-- A 150-character body string (used to exercise the length gate). -/
def longBody : String :=
  ⟨List.replicate 150 'a'⟩

/-- The key/usability test of the index build, phrased on a page-tagged
line: the line lies on page `p`, its trimmed content is `t`, and its
polygon flattens to at least 8 numbers. -/
def lineMatches (p : Nat) (t : String) (x : Nat × Line) : Bool :=
  decide (x.1 = p) && decide (jsTrim x.2.content = t) && lineUsable x.2

/-- The geometry the index stores for a page-tagged line. -/
def indexedGeom (x : Nat × Line) : LineGeom :=
  ⟨x.1, (flattenPolygon x.2.polygon).getD []⟩

/-- The index-building step over the flattened page/line traversal. -/
def insertStep (m : List MapEntry) (x : Nat × Line) : List MapEntry :=
  insertLine x.1 m x.2

/-! ## String and decimal-rendering infrastructure -/

theorem strConcat_append (l₁ l₂ : List String) :
    strConcat (l₁ ++ l₂) = strConcat l₁ ++ strConcat l₂ := by
  induction l₁ with
  | nil => simp [strConcat]
  | cons s rest ih => simp [strConcat, ih, String.append_assoc]

theorem strConcat_flatten (L : List (List String)) :
    strConcat L.flatten = strConcat (L.map strConcat) := by
  induction L with
  | nil => rfl
  | cons l rest ih => simp [strConcat, strConcat_append, ih]

theorem str_left_cancel {a b c : String} (h : a ++ b = a ++ c) : b = c := by
  apply String.ext
  have hd := congrArg String.data h
  simpa using hd

theorem fmtD_length_pos (pn : Nat) (p : List Int) : 0 < (fmtD pn p).length := by
  unfold fmtD
  simp only [String.length_append]
  have h2 : ("D(" : String).length = 2 := rfl
  omega

theorem fmtD_ne_empty (pn : Nat) (p : List Int) : fmtD pn p ≠ "" := by
  intro h
  have := fmtD_length_pos pn p
  rw [h] at this
  simp at this

theorem jsJoin_ne_empty_of_mem {l : List String} {s : String}
    (hs : s ∈ l) (hne : s ≠ "") : jsJoin ";" l ≠ "" := by
  match l, hs with
  | [t], hs =>
    have : s = t := by simpa using hs
    subst this
    simpa [jsJoin] using hne
  | t :: u :: rest, _ =>
    intro h
    have hlen := congrArg String.length h
    simp only [jsJoin, String.length_append, String.length_empty] at hlen
    have hsep : (";" : String).length = 1 := rfl
    omega

theorem decRevAux_eq_digits : ∀ (f n : Nat), n ≤ f → decRevAux f n = Nat.digits 10 n := by
  intro f
  induction f with
  | zero =>
    intro n hn
    interval_cases n
    rw [Nat.digits_zero]
    rfl
  | succ f ih =>
    intro n hn
    match n with
    | 0 =>
      rw [Nat.digits_zero]
      rfl
    | k + 1 =>
      rw [decRevAux, Nat.digits_def' (b := 10) (by norm_num) (Nat.succ_pos k)]
      congr 1
      exact ih ((k + 1) / 10)
        (Nat.le_of_lt_succ (Nat.lt_of_le_of_lt (Nat.le_of_lt_succ (Nat.div_lt_self (Nat.succ_pos k) (by norm_num))) hn))

theorem decDigits_eq_digits (n : Nat) : decDigits n = Nat.digits 10 n :=
  decRevAux_eq_digits n n le_rfl

theorem decDigits_injective {m n : Nat} (h : decDigits m = decDigits n) : m = n := by
  rw [decDigits_eq_digits, decDigits_eq_digits] at h
  have := congrArg (Nat.ofDigits 10) h
  rwa [Nat.ofDigits_digits, Nat.ofDigits_digits] at this

theorem decDigits_lt_ten {n : Nat} : ∀ x ∈ decDigits n, x < 10 := by
  rw [decDigits_eq_digits]
  exact fun x hx => Nat.digits_lt_base (by norm_num) hx

theorem digitChar_inj_lt : ∀ a < 10, ∀ b < 10, Nat.digitChar a = Nat.digitChar b → a = b := by
  decide

theorem map_digitChar_inj : ∀ (l₁ l₂ : List Nat), (∀ x ∈ l₁, x < 10) → (∀ x ∈ l₂, x < 10) →
    l₁.map Nat.digitChar = l₂.map Nat.digitChar → l₁ = l₂ := by
  intro l₁
  induction l₁ with
  | nil =>
    intro l₂ _ _ h
    cases l₂ with
    | nil => rfl
    | cons b bs => simp at h
  | cons a as ih =>
    intro l₂ h₁ h₂ h
    cases l₂ with
    | nil => simp at h
    | cons b bs =>
      simp only [List.map_cons, List.cons.injEq] at h
      have ha : a = b :=
        digitChar_inj_lt a (h₁ a (List.mem_cons_self a as)) b (h₂ b (List.mem_cons_self b bs)) h.1
      have hrest : as = bs :=
        ih bs (fun x hx => h₁ x (List.mem_cons_of_mem a hx))
          (fun x hx => h₂ x (List.mem_cons_of_mem b hx)) h.2
      rw [ha, hrest]

theorem jsNatStr_injective {m n : Nat} (h : jsNatStr m = jsNatStr n) : m = n := by
  unfold jsNatStr at h
  by_cases hm : m = 0 <;> by_cases hn : n = 0
  · rw [hm, hn]
  · exfalso
    rw [if_pos hm, if_neg hn] at h
    have hd := congrArg String.data h
    have hd' : (['0'] : List Char) = (decDigits n).reverse.map Nat.digitChar := hd
    have hlen : ((decDigits n).reverse.map Nat.digitChar).length = 1 := by
      rw [← hd']
      rfl
    rw [List.length_map] at hlen
    obtain ⟨d, hrev⟩ := List.length_eq_one.mp hlen
    have hdig : decDigits n = [d] := by
      have := congrArg List.reverse hrev
      simpa using this
    have hd0 : Nat.digitChar d = '0' := by
      rw [hrev] at hd'
      simpa using hd'.symm
    have hdlt : d < 10 := decDigits_lt_ten d (by rw [hdig]; exact List.mem_singleton_self d)
    have : d = 0 := digitChar_inj_lt d hdlt 0 (by norm_num) hd0
    rw [this] at hdig
    rw [decDigits_eq_digits] at hdig
    have := congrArg (Nat.ofDigits 10) hdig
    rw [Nat.ofDigits_digits, Nat.ofDigits_singleton] at this
    exact hn this
  · exfalso
    rw [if_neg hm, if_pos hn] at h
    have hd := congrArg String.data h.symm
    have hd' : (['0'] : List Char) = (decDigits m).reverse.map Nat.digitChar := hd
    have hlen : ((decDigits m).reverse.map Nat.digitChar).length = 1 := by
      rw [← hd']
      rfl
    rw [List.length_map] at hlen
    obtain ⟨d, hrev⟩ := List.length_eq_one.mp hlen
    have hdig : decDigits m = [d] := by
      have := congrArg List.reverse hrev
      simpa using this
    have hd0 : Nat.digitChar d = '0' := by
      rw [hrev] at hd'
      simpa using hd'.symm
    have hdlt : d < 10 := decDigits_lt_ten d (by rw [hdig]; exact List.mem_singleton_self d)
    have : d = 0 := digitChar_inj_lt d hdlt 0 (by norm_num) hd0
    rw [this] at hdig
    rw [decDigits_eq_digits] at hdig
    have := congrArg (Nat.ofDigits 10) hdig
    rw [Nat.ofDigits_digits, Nat.ofDigits_singleton] at this
    exact hm this
  · rw [if_neg hm, if_neg hn] at h
    have hd := congrArg String.data h
    have hmap : (decDigits m).reverse.map Nat.digitChar = (decDigits n).reverse.map Nat.digitChar := hd
    have hrev : (decDigits m).reverse = (decDigits n).reverse :=
      map_digitChar_inj _ _ (fun x hx => decDigits_lt_ten x (List.mem_reverse.mp hx))
        (fun x hx => decDigits_lt_ten x (List.mem_reverse.mp hx)) hmap
    exact decDigits_injective (List.reverse_inj.mp hrev)

theorem itemId_injective {i j : Nat}
    (h : "item-" ++ jsNatStr i = "item-" ++ jsNatStr j) : i = j :=
  jsNatStr_injective (str_left_cancel h)

/-! ## Assembly-path infrastructure -/

theorem enum_map_snd_comp (l : List α) (f : α → β) :
    l.enum.map (fun x => f x.2) = l.map f := by
  rw [show (fun x : Nat × α => f x.2) = f ∘ Prod.snd from rfl, ← List.map_map, List.enum_map_snd]

theorem paragraphItems_length (ps : List Paragraph) :
    (paragraphItems ps).length = ps.length := by
  simp [paragraphItems]

theorem paragraphItems_getElem? (ps : List Paragraph) (i : Nat) :
    (paragraphItems ps)[i]? = (ps[i]?).map (fun p => mkParagraphItem i p) := by
  simp [paragraphItems, List.getElem?_enum, Option.map_map]
  rfl

theorem paragraphItems_map_content (ps : List Paragraph) :
    (paragraphItems ps).map ContentItem.content = ps.map Paragraph.content := by
  rw [paragraphItems, List.map_map]
  exact enum_map_snd_comp ps Paragraph.content

theorem extract_paragraph_path {r : RawAnalysisResult} {ps : List Paragraph}
    (hp : r.paragraphs = some ps) (hne : ps ≠ []) :
    extractStructuredContent r =
      ⟨paragraphItems ps, paragraphText ps,
        match r.pages with | some pgs => pgs.length | none => 0⟩ := by
  unfold extractStructuredContent
  rw [hp]
  have hlen : ¬((paragraphItems ps).length = 0) := by
    rw [paragraphItems_length]
    exact fun h => hne (List.length_eq_zero.mp h)
  simp only [if_neg hlen]

theorem extract_fallback_path {r : RawAnalysisResult} {pgs : List Page}
    (hp : r.paragraphs.getD [] = []) (hpg : r.pages = some pgs) :
    extractStructuredContent r = ⟨lineItems pgs, linesText pgs, pgs.length⟩ := by
  unfold extractStructuredContent
  rw [hpg]
  cases hps : r.paragraphs with
  | none => simp
  | some ps =>
    rw [hps] at hp
    simp only [Option.getD_some] at hp
    subst hp
    simp [paragraphItems, paragraphText, strConcat]

theorem lineItems_map {β : Type} (g : ContentItem → β) (f : Nat × Line → β)
    (hgf : ∀ pi pn li l, g (mkLineItem pi pn li l) = f (pn, l)) (pgs : List Page) :
    (lineItems pgs).map g = (allPageLines pgs).map f := by
  rw [lineItems, allPageLines, List.map_flatten, List.map_flatten, List.map_map, List.map_map]
  congr 1
  have hinner : (fun x : Nat × Page =>
      ((x.2.lines.getD []).enum.map (fun y => mkLineItem x.1 x.2.pageNumber y.1 y.2)).map g) =
      (fun x : Nat × Page => (x.2.lines.getD []).map (fun l => f (x.2.pageNumber, l))) := by
    funext x
    rw [List.map_map]
    have : (g ∘ fun y : Nat × Line => mkLineItem x.1 x.2.pageNumber y.1 y.2) =
        (fun y : Nat × Line => f (x.2.pageNumber, y.2)) := by
      funext y
      exact hgf x.1 x.2.pageNumber y.1 y.2
    rw [this]
    exact enum_map_snd_comp (x.2.lines.getD []) (fun l => f (x.2.pageNumber, l))
  rw [show (List.map g ∘ fun x : Nat × Page =>
      (x.2.lines.getD []).enum.map (fun y => mkLineItem x.1 x.2.pageNumber y.1 y.2)) =
      (fun x : Nat × Page =>
        ((x.2.lines.getD []).enum.map (fun y => mkLineItem x.1 x.2.pageNumber y.1 y.2)).map g)
    from rfl, hinner]
  rw [enum_map_snd_comp pgs
    (fun pg => (pg.lines.getD []).map (fun l => f (pg.pageNumber, l)))]
  have houter : (List.map f ∘ fun pg : Page => (pg.lines.getD []).map (fun l => (pg.pageNumber, l))) =
      (fun pg : Page => (pg.lines.getD []).map (fun l => f (pg.pageNumber, l))) := by
    funext pg
    simp [Function.comp, List.map_map]
  rw [houter]

theorem lineItems_length (pgs : List Page) :
    (lineItems pgs).length = totalLineCount pgs := by
  rw [lineItems, totalLineCount, List.length_flatten, List.map_map]
  have : ((fun l : List ContentItem => l.length) ∘ fun x : Nat × Page =>
      (x.2.lines.getD []).enum.map (fun y => mkLineItem x.1 x.2.pageNumber y.1 y.2)) =
      (fun x : Nat × Page => (x.2.lines.getD []).length) := by
    funext x
    simp
  rw [this, enum_map_snd_comp pgs (fun pg => (pg.lines.getD []).length)]

theorem strConcat_lineItems (pgs : List Page) :
    strConcat ((lineItems pgs).map (fun it => it.content ++ "\n")) = linesText pgs := by
  rw [lineItems_map (fun it => it.content ++ "\n") (fun x => x.2.content ++ "\n")
    (fun _ _ _ _ => rfl) pgs]
  rw [allPageLines, List.map_flatten, strConcat_flatten, List.map_map, List.map_map, linesText]
  have houter : ((strConcat ∘ List.map fun x : Nat × Line => x.2.content ++ "\n") ∘
      fun pg : Page => (pg.lines.getD []).map (fun l => (pg.pageNumber, l))) =
      (fun pg : Page => strConcat ((pg.lines.getD []).map (fun l => l.content ++ "\n"))) := by
    funext pg
    simp only [Function.comp, List.map_map]
    rfl
  rw [houter]

theorem linesText_eq_allPageLines (pgs : List Page) :
    linesText pgs = strConcat ((allPageLines pgs).map (fun x => x.2.content ++ "\n")) := by
  rw [allPageLines, List.map_flatten, strConcat_flatten, List.map_map, List.map_map, linesText]
  have houter : ((strConcat ∘ List.map fun x : Nat × Line => x.2.content ++ "\n") ∘
      fun pg : Page => (pg.lines.getD []).map (fun l => (pg.pageNumber, l))) =
      (fun pg : Page => strConcat ((pg.lines.getD []).map (fun l => l.content ++ "\n"))) := by
    funext pg
    simp only [Function.comp, List.map_map]
    rfl
  rw [houter]

/-! ## Geometry-index characterization -/

theorem lookupMap_append (m₁ m₂ : List MapEntry) (p : Nat) (t : String) :
    lookupMap (m₁ ++ m₂) p t = (lookupMap m₁ p t).or (lookupMap m₂ p t) := by
  unfold lookupMap
  rw [List.find?_append]
  cases m₁.find? (fun e => decide (e.keyPage = p) && decide (e.keyText = t)) <;> simp

theorem lookupMap_foldl_insert (L : List (Nat × Line)) :
    ∀ (m : List MapEntry) (p : Nat) (t : String),
    lookupMap (L.foldl insertStep m) p t =
      (lookupMap m p t).or ((L.find? (lineMatches p t)).map indexedGeom) := by
  induction L with
  | nil =>
    intro m p t
    simp
  | cons x L ih =>
    intro m p t
    rw [List.foldl_cons, ih]
    by_cases hmatch : lineMatches p t x = true
    · rw [List.find?_cons_of_pos _ hmatch]
      obtain ⟨⟨hp, ht⟩, hu⟩ : (x.1 = p ∧ jsTrim x.2.content = t) ∧ lineUsable x.2 = true := by
        simpa [lineMatches, Bool.and_eq_true, decide_eq_true_eq] using hmatch
      obtain ⟨fp, hfp, hlen⟩ : ∃ fp, flattenPolygon x.2.polygon = some fp ∧ 8 ≤ fp.length := by
        unfold lineUsable at hu
        cases hpoly : flattenPolygon x.2.polygon with
        | none => rw [hpoly] at hu; simp at hu
        | some fp =>
          rw [hpoly] at hu
          exact ⟨fp, rfl, by simpa using hu⟩
      subst hp
      subst ht
      show (lookupMap (insertLine x.1 m x.2) x.1 (jsTrim x.2.content)).or _ = _
      cases hlk : lookupMap m x.1 (jsTrim x.2.content) with
      | some v =>
        have hins : insertLine x.1 m x.2 = m := by
          unfold insertLine
          rw [hfp, hlk]
          simp
        rw [hins, hlk]
        simp
      | none =>
        have hins : insertLine x.1 m x.2 =
            m ++ [⟨x.1, jsTrim x.2.content, ⟨x.1, fp⟩⟩] := by
          unfold insertLine
          rw [hfp, hlk]
          simp [hlen]
        rw [hins, lookupMap_append, hlk]
        simp [lookupMap, indexedGeom, hfp]
    · rw [Bool.not_eq_true] at hmatch
      rw [List.find?_cons_of_neg _ (by simp [hmatch])]
      have hins : lookupMap (insertStep m x) p t = lookupMap m p t := by
        unfold insertStep insertLine
        cases hfp : flattenPolygon x.2.polygon with
        | none => rfl
        | some fp =>
          dsimp only
          by_cases hcond : ((lookupMap m x.1 (jsTrim x.2.content)).isNone && decide (8 ≤ fp.length)) = true
          · rw [if_pos hcond, lookupMap_append]
            have husable : lineUsable x.2 = true := by
              unfold lineUsable
              rw [hfp]
              simp only [Bool.and_eq_true] at hcond
              exact hcond.2
            have hkey : ¬(x.1 = p ∧ jsTrim x.2.content = t) := by
              intro ⟨h1, h2⟩
              have : lineMatches p t x = true := by
                simp [lineMatches, h1, h2, husable]
              rw [this] at hmatch
              cases hmatch
            have hsingle : lookupMap [⟨x.1, jsTrim x.2.content, ⟨x.1, fp⟩⟩] p t = none := by
              unfold lookupMap
              simp only [List.find?]
              by_cases h1 : x.1 = p
              · by_cases h2 : jsTrim x.2.content = t
                · exact absurd ⟨h1, h2⟩ hkey
                · simp [h1, h2]
              · simp [h1]
            rw [hsingle]
            simp
          · rw [if_neg hcond]
      rw [hins]

theorem buildFold_eq (pgs : List Page) :
    ∀ m : List MapEntry,
    pgs.foldl
      (fun m page =>
        match page.lines with
        | some ls => ls.foldl (fun m line => insertLine page.pageNumber m line) m
        | none => m)
      m = (allPageLines pgs).foldl insertStep m := by
  induction pgs with
  | nil =>
    intro m
    rfl
  | cons pg rest ih =>
    intro m
    have hall : allPageLines (pg :: rest) =
        ((pg.lines.getD []).map (fun l => (pg.pageNumber, l))) ++ allPageLines rest := by
      simp [allPageLines]
    rw [List.foldl_cons, ih, hall, List.foldl_append, List.foldl_map]
    cases pg.lines <;> rfl

theorem buildLineMap_eq_foldl (pgs : List Page) :
    buildLineMap (some pgs) = (allPageLines pgs).foldl insertStep [] := by
  unfold buildLineMap
  exact buildFold_eq pgs []

theorem all_foldl_insert (L : List (Nat × Line)) :
    ∀ m : List MapEntry,
    m.all (fun e => decide (8 ≤ e.geom.polygon.length)) = true →
    (L.foldl insertStep m).all (fun e => decide (8 ≤ e.geom.polygon.length)) = true := by
  induction L with
  | nil =>
    intro m hm
    exact hm
  | cons x L ih =>
    intro m hm
    rw [List.foldl_cons]
    apply ih
    unfold insertStep insertLine
    cases hfp : flattenPolygon x.2.polygon with
    | none => exact hm
    | some fp =>
      dsimp only
      by_cases hcond : ((lookupMap m x.1 (jsTrim x.2.content)).isNone && decide (8 ≤ fp.length)) = true
      · rw [if_pos hcond]
        rw [List.all_append]
        simp only [Bool.and_eq_true] at hcond ⊢
        refine ⟨hm, ?_⟩
        simpa using hcond.2
      · rw [if_neg hcond]
        exact hm

/-! ## Item-level helper lemmas -/

theorem items_id_of_paragraph_path {ps : List Paragraph} {i : Nat} {it : ContentItem}
    (h : (paragraphItems ps)[i]? = some it) : it.id = "item-" ++ jsNatStr i := by
  rw [paragraphItems_getElem?] at h
  cases hgi : ps[i]? with
  | none =>
    rw [hgi] at h
    simp at h
  | some p =>
    rw [hgi] at h
    simp only [Option.map_some'] at h
    have := Option.some.inj h
    rw [← this]
    rfl

theorem paragraphItems_map_content_sep (ps : List Paragraph) (sep : String) :
    (paragraphItems ps).map (fun it => it.content ++ sep) =
      ps.map (fun p => p.content ++ sep) := by
  rw [paragraphItems, List.map_map]
  exact enum_map_snd_comp ps (fun p => p.content ++ sep)

theorem mkLineItem_type_ok (pi pn li : Nat) (l : Line) :
    (decide ((mkLineItem pi pn li l).type = "heading") ||
      decide ((mkLineItem pi pn li l).type = "paragraph")) = true := by
  by_cases h : shapeGate l.content = true <;> simp [mkLineItem, h]

theorem mkParagraphItem_type_ok (i : Nat) (para : Paragraph) :
    (decide ((mkParagraphItem i para).type = "heading") ||
      decide ((mkParagraphItem i para).type = "paragraph")) = true := by
  by_cases h : paragraphIsHeading (effectiveRole para.role) para.content = true <;>
    simp [mkParagraphItem, h]

theorem paragraphItems_all_type (ps : List Paragraph) :
    ((paragraphItems ps).all
      (fun it => decide (it.type = "heading") || decide (it.type = "paragraph"))) = true := by
  rw [List.all_eq_true]
  intro it hit
  rw [paragraphItems, List.mem_map] at hit
  obtain ⟨x, _, hx⟩ := hit
  rw [← hx]
  exact mkParagraphItem_type_ok x.1 x.2

theorem lineItems_all_type (pgs : List Page) :
    ((lineItems pgs).all
      (fun it => decide (it.type = "heading") || decide (it.type = "paragraph"))) = true := by
  rw [List.all_eq_true]
  intro it hit
  rw [lineItems, List.mem_flatten] at hit
  obtain ⟨inner, hinner, hmem⟩ := hit
  rw [List.mem_map] at hinner
  obtain ⟨x, _, hx⟩ := hinner
  rw [← hx, List.mem_map] at hmem
  obtain ⟨y, _, hy⟩ := hmem
  rw [← hy]
  exact mkLineItem_type_ok x.1 x.2.pageNumber y.1 y.2

/-! ## Claim C4 -/

/-- C4: the Geometry Index build stores only entries whose flattened
polygon has at least 8 numbers, and a stored key is never overwritten: the
lookup of any (page, trimmed text) key returns the geometry of the first
line, in page-then-line traversal order, whose page and trimmed text match
and whose polygon is usable — so a second line with identical trimmed text
on the same page leaves the first-seen polygon in place. -/
theorem C4_geometry_index_build (pages : Option (List Page)) :
    ((buildLineMap pages).all (fun e => decide (8 ≤ e.geom.polygon.length))) = true
    ∧ (∀ (p : Nat) (t : String),
        lookupMap (buildLineMap pages) p t =
          ((allPageLines (pages.getD [])).find? (lineMatches p t)).map indexedGeom) := by
  cases pages with
  | none =>
    refine ⟨rfl, fun p t => ?_⟩
    simp [buildLineMap, lookupMap, allPageLines]
  | some pgs =>
    constructor
    · rw [buildLineMap_eq_foldl]
      exact all_foldl_insert (allPageLines pgs) [] rfl
    · intro p t
      rw [buildLineMap_eq_foldl, lookupMap_foldl_insert]
      simp [lookupMap]

/-! ## Claim C2 -/

/-- C2: for a raw result with at least one paragraph, the assembler emits
exactly one item per paragraph in the original order (the i-th item's
content equals the i-th paragraph's content), each item's id is
`item-<position>`, and distinct positions carry distinct ids. -/
theorem C2_items_order_ids (r : RawAnalysisResult) (ps : List Paragraph)
    (hp : r.paragraphs = some ps) (hne : ps ≠ []) :
    (extractStructuredContent r).items.length = ps.length
    ∧ (∀ i : Nat, ((extractStructuredContent r).items[i]?).map ContentItem.content =
        (ps[i]?).map Paragraph.content)
    ∧ (∀ (i : Nat) (it : ContentItem), (extractStructuredContent r).items[i]? = some it →
        it.id = "item-" ++ jsNatStr i)
    ∧ (∀ (i j : Nat) (it jt : ContentItem),
        (extractStructuredContent r).items[i]? = some it →
        (extractStructuredContent r).items[j]? = some jt →
        it.id = jt.id → i = j) := by
  have hitems : (extractStructuredContent r).items = paragraphItems ps := by
    rw [extract_paragraph_path hp hne]
  refine ⟨?_, ?_, ?_, ?_⟩
  · rw [hitems, paragraphItems_length]
  · intro i
    rw [hitems, paragraphItems_getElem?, Option.map_map]
    rfl
  · intro i it hit
    rw [hitems] at hit
    exact items_id_of_paragraph_path hit
  · intro i j it jt hi hj hid
    rw [hitems] at hi hj
    have h1 := items_id_of_paragraph_path hi
    have h2 := items_id_of_paragraph_path hj
    rw [h1, h2] at hid
    exact itemId_injective hid

/-- C2 witness: the theorem applied to a two-paragraph input. -/
theorem C2_witness :
    (extractStructuredContent ⟨none, some [⟨"First.", none, none⟩, ⟨"Second.", none, none⟩]⟩).items.length = 2 :=
  (C2_items_order_ids ⟨none, some [⟨"First.", none, none⟩, ⟨"Second.", none, none⟩]⟩
    [⟨"First.", none, none⟩, ⟨"Second.", none, none⟩] rfl (by decide)).1

/-! ## Claim C9 -/

/-- C9: a paragraph whose `boundingRegions` is the empty sequence yields an
item with page 1, empty bounding box and a `null` source. -/
theorem C9_empty_boundingRegions (r : RawAnalysisResult) (ps : List Paragraph)
    (i : Nat) (para : Paragraph)
    (hp : r.paragraphs = some ps) (hi : ps[i]? = some para)
    (hreg : para.boundingRegions = some []) :
    ∃ it : ContentItem, (extractStructuredContent r).items[i]? = some it
      ∧ it.page = 1 ∧ it.boundingBox = [] ∧ it.source = none := by
  have hne : ps ≠ [] := by
    intro h
    rw [h] at hi
    simp at hi
  have hitems : (extractStructuredContent r).items = paragraphItems ps := by
    rw [extract_paragraph_path hp hne]
  refine ⟨mkParagraphItem i para, ?_, ?_, ?_, ?_⟩
  · rw [hitems, paragraphItems_getElem?, hi]
    rfl
  · simp [mkParagraphItem, hreg]
  · simp [mkParagraphItem, firstRegionPolygon, hreg, flattenPolygon]
  · simp [mkParagraphItem, hreg]

/-- C9 witness: the theorem applied to a concrete paragraph with an empty
region list. -/
theorem C9_witness :
    ∃ it : ContentItem,
      (extractStructuredContent ⟨none, some [⟨"Solo", none, some []⟩]⟩).items[0]? = some it
      ∧ it.page = 1 ∧ it.boundingBox = [] ∧ it.source = none :=
  C9_empty_boundingRegions ⟨none, some [⟨"Solo", none, some []⟩]⟩
    [⟨"Solo", none, some []⟩] 0 ⟨"Solo", none, some []⟩ rfl rfl rfl

/-! ## Claim C10 -/

/-- C10: in the paragraph path, the item's `source` is `null` exactly when
the paragraph's `boundingRegions` is absent or empty, and it is the empty
string exactly when the region list is non-empty but no region's flattened
polygon reaches 8 coordinates. -/
theorem C10_source_absence_cases (r : RawAnalysisResult) (ps : List Paragraph)
    (i : Nat) (para : Paragraph) (it : ContentItem)
    (hp : r.paragraphs = some ps) (hi : ps[i]? = some para)
    (hit : (extractStructuredContent r).items[i]? = some it) :
    (it.source = none ↔ para.boundingRegions.getD [] = [])
    ∧ (it.source = some "" ↔ (para.boundingRegions.getD [] ≠ [] ∧
        ∀ reg ∈ para.boundingRegions.getD [], regionUsable reg = false)) := by
  have hne : ps ≠ [] := by
    intro h
    rw [h] at hi
    simp at hi
  have hitems : (extractStructuredContent r).items = paragraphItems ps := by
    rw [extract_paragraph_path hp hne]
  rw [hitems, paragraphItems_getElem?, hi] at hit
  simp only [Option.map_some'] at hit
  have hid := Option.some.inj hit
  subst hid
  cases hbr : para.boundingRegions with
  | none =>
    constructor
    · simp [mkParagraphItem, hbr]
    · simp [mkParagraphItem, hbr]
  | some regions =>
    cases regions with
    | nil =>
      constructor
      · simp [mkParagraphItem, hbr]
      · simp [mkParagraphItem, hbr]
    | cons reg rest =>
      have hsrc : (mkParagraphItem i para).source =
          some (jsJoin ";" ((reg :: rest).filterMap regionSourcePart)) := by
        simp [mkParagraphItem, hbr]
      constructor
      · rw [hsrc]
        simp [hbr]
      · rw [hsrc]
        simp only [hbr, Option.getD_some, Option.some.injEq]
        constructor
        · intro hjoin
          refine ⟨by simp, ?_⟩
          intro r2 hr2
          by_contra hru
          rw [Bool.not_eq_false] at hru
          have hpart : ∃ str, regionSourcePart r2 = some str ∧ str ≠ "" := by
            unfold regionUsable at hru
            cases hfp : flattenPolygon r2.polygon with
            | none =>
              rw [hfp] at hru
              cases hru
            | some fp =>
              rw [hfp] at hru
              refine ⟨fmtD r2.pageNumber fp, ?_, fmtD_ne_empty _ _⟩
              unfold regionSourcePart
              rw [hfp]
              dsimp only
              rw [if_pos (show 8 ≤ fp.length by simpa using hru)]
          obtain ⟨str, hstr, hstrne⟩ := hpart
          have hmem : str ∈ (reg :: rest).filterMap regionSourcePart :=
            List.mem_filterMap.mpr ⟨r2, hr2, hstr⟩
          exact jsJoin_ne_empty_of_mem hmem hstrne hjoin
        · rintro ⟨-, hall⟩
          have hnil : (reg :: rest).filterMap regionSourcePart = [] := by
            rw [List.filterMap_eq_nil_iff]
            intro a ha
            have hfa := hall a ha
            unfold regionUsable at hfa
            unfold regionSourcePart
            cases hfp : flattenPolygon a.polygon with
            | none => rfl
            | some fp =>
              rw [hfp] at hfa
              dsimp only
              rw [if_neg]
              exact of_decide_eq_false (by simpa using hfa)
          rw [hnil]
          rfl

/-- C10 witness: the theorem applied to a paragraph with one region whose
polygon has only 4 coordinates. -/
theorem C10_witness :
    ((mkParagraphItem 0 ⟨"W", none, some [⟨1, JPoly.flat [1, 2, 3, 4]⟩]⟩).source = none ↔
      (Paragraph.mk "W" none (some [⟨1, JPoly.flat [1, 2, 3, 4]⟩])).boundingRegions.getD [] = [])
    ∧ ((mkParagraphItem 0 ⟨"W", none, some [⟨1, JPoly.flat [1, 2, 3, 4]⟩]⟩).source = some "" ↔
      ((Paragraph.mk "W" none (some [⟨1, JPoly.flat [1, 2, 3, 4]⟩])).boundingRegions.getD [] ≠ [] ∧
        ∀ reg ∈ (Paragraph.mk "W" none (some [⟨1, JPoly.flat [1, 2, 3, 4]⟩])).boundingRegions.getD [],
          regionUsable reg = false)) := by
  have h := C10_source_absence_cases
    ⟨none, some [⟨"W", none, some [⟨1, JPoly.flat [1, 2, 3, 4]⟩]⟩]⟩
    [⟨"W", none, some [⟨1, JPoly.flat [1, 2, 3, 4]⟩]⟩] 0
    ⟨"W", none, some [⟨1, JPoly.flat [1, 2, 3, 4]⟩]⟩
    (mkParagraphItem 0 ⟨"W", none, some [⟨1, JPoly.flat [1, 2, 3, 4]⟩]⟩) rfl rfl (by decide)
  exact h

/-! ## Claim C1 -/

/-- C1 counterexample: the index built from the pages holds a usable
polygon for the paragraph's exact content on its page, yet the emitted
item's bounding box is empty — the looked-up polygon is not used. -/
theorem C1_counterexample :
    (extractStructuredContent c1Input).items.map ContentItem.boundingBox = [[]]
    ∧ findLinePolygon (buildLineMap c1Input.pages) "Confidential" 1 =
        some ⟨1, [1, 2, 3, 4, 5, 6, 7, 8]⟩ := by
  exact ⟨by decide, by decide⟩

/-- C1 amended: the paragraph path resolves an item's bounding geometry
only from the paragraph's own first bounding region (empty when that is
absent or unusable); the Geometry Index is never consulted, so the emitted
items do not depend on `pages` at all. -/
theorem C1_amended_no_index_fallback (r : RawAnalysisResult) (ps : List Paragraph) :
    (∀ (i : Nat) (para : Paragraph) (it : ContentItem),
      r.paragraphs = some ps → ps[i]? = some para →
      (extractStructuredContent r).items[i]? = some it →
      it.boundingBox = (flattenPolygon (firstRegionPolygon para)).getD [])
    ∧ (∀ pages1 pages2 : Option (List Page), ps ≠ [] →
        (extractStructuredContent ⟨pages1, some ps⟩).items =
          (extractStructuredContent ⟨pages2, some ps⟩).items) := by
  constructor
  · intro i para it hp hi hit
    have hne : ps ≠ [] := by
      intro h
      rw [h] at hi
      simp at hi
    have hitems : (extractStructuredContent r).items = paragraphItems ps := by
      rw [extract_paragraph_path hp hne]
    rw [hitems, paragraphItems_getElem?, hi] at hit
    simp only [Option.map_some'] at hit
    have hid := Option.some.inj hit
    subst hid
    rfl
  · intro pages1 pages2 hne
    rw [extract_paragraph_path (r := ⟨pages1, some ps⟩) rfl hne,
        extract_paragraph_path (r := ⟨pages2, some ps⟩) rfl hne]

/-- C1 witness: the amended theorem applied to a concrete paragraph list,
with and without pages carrying index geometry. -/
theorem C1_witness :
    (extractStructuredContent
      ⟨some [⟨1, some [⟨"Confidential", JPoly.flat [1, 2, 3, 4, 5, 6, 7, 8]⟩]⟩],
       some [⟨"Confidential", some "paragraph", none⟩]⟩).items =
    (extractStructuredContent ⟨none, some [⟨"Confidential", some "paragraph", none⟩]⟩).items :=
  (C1_amended_no_index_fallback ⟨none, some [⟨"Confidential", some "paragraph", none⟩]⟩
    [⟨"Confidential", some "paragraph", none⟩]).2
    (some [⟨1, some [⟨"Confidential", JPoly.flat [1, 2, 3, 4, 5, 6, 7, 8]⟩]⟩]) none (by decide)

/-! ## Claim C3 -/

/-- C3 counterexample: on a fallback-path input the returned `fullText` is
not the items' contents separated by blank lines (in either the separator
or the terminator reading). -/
theorem C3_counterexample :
    (extractStructuredContent c3Input).fullText ≠
      jsJoin "\n\n" ((extractStructuredContent c3Input).items.map ContentItem.content)
    ∧ (extractStructuredContent c3Input).fullText ≠
      strConcat (((extractStructuredContent c3Input).items.map ContentItem.content).map
        (fun c => c ++ "\n\n")) := by
  exact ⟨by decide, by decide⟩

/-- C3 amended: in the paragraph path `fullText` is the concatenation of
each item's content followed by a blank line; in the line fallback path it
is the concatenation of each item's content followed by a single newline. -/
theorem C3_amended_fulltext (r : RawAnalysisResult) :
    (∀ ps : List Paragraph, r.paragraphs = some ps → ps ≠ [] →
      (extractStructuredContent r).fullText =
        strConcat ((extractStructuredContent r).items.map (fun it => it.content ++ "\n\n")))
    ∧ (∀ pgs : List Page, r.paragraphs.getD [] = [] → r.pages = some pgs →
      (extractStructuredContent r).fullText =
        strConcat ((extractStructuredContent r).items.map (fun it => it.content ++ "\n"))) := by
  constructor
  · intro ps hp hne
    rw [extract_paragraph_path hp hne]
    show paragraphText ps = strConcat ((paragraphItems ps).map (fun it => it.content ++ "\n\n"))
    rw [paragraphItems_map_content_sep]
    rfl
  · intro pgs hp hpg
    rw [extract_fallback_path hp hpg]
    show linesText pgs = strConcat ((lineItems pgs).map (fun it => it.content ++ "\n"))
    rw [strConcat_lineItems]

/-- C3 witness: the amended theorem applied on both paths. -/
theorem C3_witness :
    (extractStructuredContent ⟨none, some [⟨"P1", none, none⟩, ⟨"P2", none, none⟩]⟩).fullText =
      strConcat ((extractStructuredContent ⟨none, some [⟨"P1", none, none⟩, ⟨"P2", none, none⟩]⟩).items.map
        (fun it => it.content ++ "\n\n")) :=
  (C3_amended_fulltext ⟨none, some [⟨"P1", none, none⟩, ⟨"P2", none, none⟩]⟩).1
    [⟨"P1", none, none⟩, ⟨"P2", none, none⟩] rfl (by decide)

/-! ## Claim C5 -/

/-- C5 counterexample: the scenario-2 sentence has 141 characters, under
the 150-character gate, and it matches the leading-numeric pattern, so the
code classifies it `heading`, not `paragraph`. -/
theorem C5_counterexample :
    scenario2.length = 141
    ∧ (mkParagraphItem 0 ⟨scenario2, some "paragraph", none⟩).type = "heading" := by
  exact ⟨by decide, by decide⟩

/-- C5 amended: a paragraph whose effective role is outside the recognised
heading set is classified `paragraph` whenever its content has at least
150 characters, whatever shape it has; the scenario-2 sentence, however,
has only 141 characters and is classified `heading`. -/
theorem C5_amended_length_gate :
    (∀ (i : Nat) (para : Paragraph),
      effectiveRole para.role ≠ "title" →
      effectiveRole para.role ≠ "sectionHeading" →
      effectiveRole para.role ≠ "pageHeader" →
      150 ≤ para.content.length →
      (mkParagraphItem i para).type = "paragraph")
    ∧ (∀ i : Nat, (mkParagraphItem i ⟨scenario2, some "paragraph", none⟩).type = "heading") := by
  constructor
  · intro i para h1 h2 h3 hlen
    have hfalse : paragraphIsHeading (effectiveRole para.role) para.content = false := by
      unfold paragraphIsHeading shapeGate
      rw [decide_eq_false h1, decide_eq_false h2, decide_eq_false h3,
        decide_eq_false (by omega : ¬(para.content.length < 150))]
      simp
    simp [mkParagraphItem, hfalse]
  · intro i
    have htrue : paragraphIsHeading (effectiveRole (some "paragraph")) scenario2 = true := by
      decide
    simp [mkParagraphItem, htrue]

/-- C5 witness: the amended theorem applied to a 150-character body. -/
theorem C5_witness :
    (mkParagraphItem 0 ⟨longBody, some "paragraph", none⟩).type = "paragraph" :=
  C5_amended_length_gate.1 0 ⟨longBody, some "paragraph", none⟩
    (by decide) (by decide) (by decide) (by decide)

/-! ## Claim C6 -/

/-- C6 counterexample: with the stored line text `"Note: x"` (which holds a
colon) and content `"Note B"`, the source's prefix scan compares against
`key.split(':')[1] = "Note"` and returns the entry, while the claim's rules
(full stored text as prefix) return none. -/
theorem C6_counterexample :
    findLinePolygon (buildLineMap c6Pages) "Note B" 1 = some ⟨1, [1, 2, 3, 4, 5, 6, 7, 8]⟩
    ∧ claimLookup (buildLineMap c6Pages) "Note B" 1 = none
    ∧ findLinePolygon (buildLineMap c6Pages) "Note B" 1 ≠
        claimLookup (buildLineMap c6Pages) "Note B" 1 := by
  exact ⟨by decide, by decide, by decide⟩

/-- C6 amended: the lookup resolves in fixed order with first match
winning — exact trimmed-content key, then trimmed first-line key, then a
scan returning, in insertion order, the first entry of the page whose
stored text truncated at its first colon (`key.split(':')[1]`) is a prefix
of the trimmed content — and returns the scan's result (none when nothing
matches). -/
theorem C6_amended_lookup (m : List MapEntry) (content : String) (p : Nat) :
    (∀ v, lookupMap m p (jsTrim content) = some v → findLinePolygon m content p = some v)
    ∧ (lookupMap m p (jsTrim content) = none →
        ∀ v, lookupMap m p (jsTrim (firstLineOf content)) = some v →
        findLinePolygon m content p = some v)
    ∧ (lookupMap m p (jsTrim content) = none →
        lookupMap m p (jsTrim (firstLineOf content)) = none →
        findLinePolygon m content p =
          (m.find? (fun e => decide (e.keyPage = p) &&
            jsStartsWith (jsTrim content) (keyFirstSeg e.keyText))).map MapEntry.geom) := by
  refine ⟨?_, ?_, ?_⟩
  · intro v hv
    unfold findLinePolygon
    rw [hv]
  · intro h0 v hv
    unfold findLinePolygon
    rw [h0, hv]
  · intro h0 h1
    unfold findLinePolygon
    rw [h0, h1]

/-- C6 witness: the amended theorem's scan clause applied on the concrete
index. -/
theorem C6_witness :
    findLinePolygon (buildLineMap c6Pages) "Unrelated" 1 =
      ((buildLineMap c6Pages).find? (fun e => decide (e.keyPage = 1) &&
        jsStartsWith (jsTrim "Unrelated") (keyFirstSeg e.keyText))).map MapEntry.geom :=
  (C6_amended_lookup (buildLineMap c6Pages) "Unrelated" 1).2.2 (by decide) (by decide)

/-! ## Claim C7 -/

/-- C7: when the raw result has no paragraphs but has pages, the assembler
emits one item per line in page-then-line order, classified by content
shape alone, and `fullText` appends each line's content plus a single
newline; on scenario 4's page the two items are typed heading then
paragraph with `fullText` `"SECTION 1\nText body here.\n"`. -/
theorem C7_fallback_lines (r : RawAnalysisResult) (pgs : List Page) :
    (r.paragraphs = none → r.pages = some pgs →
      ((extractStructuredContent r).items.length = totalLineCount pgs
       ∧ (extractStructuredContent r).items.map ContentItem.content =
           (allPageLines pgs).map (fun x => x.2.content)
       ∧ (extractStructuredContent r).items.map ContentItem.type =
           (allPageLines pgs).map
             (fun x => if shapeGate x.2.content then "heading" else "paragraph")
       ∧ (extractStructuredContent r).fullText =
           strConcat ((allPageLines pgs).map (fun x => x.2.content ++ "\n"))))
    ∧ ((extractStructuredContent scenario4Input).items.map ContentItem.type =
        ["heading", "paragraph"]
       ∧ (extractStructuredContent scenario4Input).items.map ContentItem.content =
           ["SECTION 1", "Text body here."]
       ∧ (extractStructuredContent scenario4Input).fullText = "SECTION 1\nText body here.\n") := by
  constructor
  · intro hp hpg
    have hfb : extractStructuredContent r = ⟨lineItems pgs, linesText pgs, pgs.length⟩ :=
      extract_fallback_path (by rw [hp]; rfl) hpg
    rw [hfb]
    refine ⟨lineItems_length pgs, ?_, ?_, linesText_eq_allPageLines pgs⟩
    · exact lineItems_map ContentItem.content (fun x => x.2.content) (fun _ _ _ _ => rfl) pgs
    · exact lineItems_map ContentItem.type
        (fun x => if shapeGate x.2.content then "heading" else "paragraph")
        (fun _ _ _ _ => rfl) pgs
  · exact ⟨by decide, by decide, by decide⟩

/-- C7 witness: the theorem applied to a one-line page. -/
theorem C7_witness :
    (extractStructuredContent ⟨some [⟨2, some [⟨"Hello", JPoly.absent⟩]⟩], none⟩).items.length =
      totalLineCount [⟨2, some [⟨"Hello", JPoly.absent⟩]⟩] :=
  ((C7_fallback_lines ⟨some [⟨2, some [⟨"Hello", JPoly.absent⟩]⟩], none⟩
    [⟨2, some [⟨"Hello", JPoly.absent⟩]⟩]).1 rfl rfl).1

/-! ## Claim C8 -/

/-- C8: on every raw result — including any combination of absent pages,
absent paragraphs, absent regions or unusable polygons — the assembler
totally computes a result: `pageCount` is the page count (0 when absent),
every paragraph (or, in the fallback, every line) yields exactly one item,
and every item is typed heading or paragraph. -/
theorem C8_graceful_degradation (r : RawAnalysisResult) :
    (extractStructuredContent r).pageCount = (r.pages.getD []).length
    ∧ (extractStructuredContent r).items.length = expectedItemCount r
    ∧ ((extractStructuredContent r).items.all
        (fun it => decide (it.type = "heading") || decide (it.type = "paragraph"))) = true := by
  cases hps : r.paragraphs with
  | none =>
    cases hpg : r.pages with
    | none =>
      have hr : extractStructuredContent r = ⟨[], "", 0⟩ := by
        unfold extractStructuredContent
        rw [hps, hpg]
        rfl
      rw [hr]
      simp [expectedItemCount, hps, hpg]
    | some pgs =>
      have hr : extractStructuredContent r = ⟨lineItems pgs, linesText pgs, pgs.length⟩ :=
        extract_fallback_path (by rw [hps]; rfl) hpg
      rw [hr]
      refine ⟨by simp [hpg], ?_, lineItems_all_type pgs⟩
      simp [expectedItemCount, hps, hpg, lineItems_length]
  | some ps =>
    by_cases hnil : ps = []
    · subst hnil
      cases hpg : r.pages with
      | none =>
        have hr : extractStructuredContent r = ⟨[], "", 0⟩ := by
          unfold extractStructuredContent
          rw [hps, hpg]
          rfl
        rw [hr]
        simp [expectedItemCount, hps, hpg]
      | some pgs =>
        have hr : extractStructuredContent r = ⟨lineItems pgs, linesText pgs, pgs.length⟩ :=
          extract_fallback_path (by rw [hps]; rfl) hpg
        rw [hr]
        refine ⟨by simp [hpg], ?_, lineItems_all_type pgs⟩
        simp [expectedItemCount, hps, hpg, lineItems_length]
    · have hr := extract_paragraph_path hps hnil
      rw [hr]
      refine ⟨?_, ?_, paragraphItems_all_type ps⟩
      · cases hpg : r.pages <;> simp [hpg]
      · rw [paragraphItems_length]
        have : ¬(ps.length = 0) := fun h => hnil (List.length_eq_zero.mp h)
        simp [expectedItemCount, hps, this]
